import Mathlib

/-!
Shallow embedding of `inject/inject.go` from kyessenov/wharfie.

Go maps of strings are modelled as association lists with
replace-or-append insertion (a nil map and an empty map are identified:
nothing in this code distinguishes them).  Go `int`/`int32`/`int64`
values are modelled as `Int` (no arithmetic in the code can overflow).
The external JSON codec (`encoding/json`) is modelled by the concrete
`Json` type below with an executable renderer and a fuel-based parser;
the external YAML codec is modelled by `yamlMarshal` (re-encoding) and
by the decoded fields carried on each input document.
-/

/-- JSON values, modelling what `encoding/json` unmarshals an
`[]interface{}` element into.  Numbers are modelled as integers (the
init-container records manipulated by this program carry no fractional
numbers). -/
inductive Json where
  | null : Json
  | bool (b : Bool) : Json
  | num (n : Int) : Json
  | str (s : String) : Json
  | arr (xs : List Json) : Json
  | obj (fields : List (String × Json)) : Json
deriving Repr

/-- Render a JSON string literal (quotes and backslashes escaped, as
`encoding/json` does; control characters are not modelled). -/
def renderJsonString (s : String) : String :=
  "\"" ++ String.join (s.data.map fun c =>
    if c = '"' then "\\\"" else if c = '\\' then "\\\\" else String.mk [c]) ++ "\""

mutual

/-- Serialise a JSON value, modelling `json.Marshal` (no whitespace). -/
def Json.render : Json → String
  | .null => "null"
  | .bool b => if b then "true" else "false"
  | .num n => toString n
  | .str s => renderJsonString s
  | .arr xs => "[" ++ Json.renderArr xs ++ "]"
  | .obj fs => "\x7b" ++ Json.renderObj fs ++ "\x7d"

def Json.renderArr : List Json → String
  | [] => ""
  | [x] => x.render
  | x :: y :: rest => x.render ++ "," ++ Json.renderArr (y :: rest)

def Json.renderObj : List (String × Json) → String
  | [] => ""
  | [f] => renderJsonString f.1 ++ ":" ++ f.2.render
  | f :: g :: rest => renderJsonString f.1 ++ ":" ++ f.2.render ++ "," ++ Json.renderObj (g :: rest)

end

/-- Whitespace skipping for the JSON parser. -/
def skipWs : List Char → List Char
  | c :: rest => if c = ' ' ∨ c = '\n' ∨ c = '\t' ∨ c = '\r' then skipWs rest else c :: rest
  | [] => []

/-- Parse a JSON string body after the opening quote; supports the same
escapes the renderer produces plus the common single-character ones. -/
def parseJsonStringAux (acc : List Char) : List Char → Option (String × List Char)
  | [] => none
  | c :: rest =>
    if c = '"' then some (String.mk acc.reverse, rest)
    else if c = '\\' then
      match rest with
      | [] => none
      | e :: rest2 =>
        if e = '"' then parseJsonStringAux ('"' :: acc) rest2
        else if e = '\\' then parseJsonStringAux ('\\' :: acc) rest2
        else if e = '/' then parseJsonStringAux ('/' :: acc) rest2
        else if e = 'n' then parseJsonStringAux ('\n' :: acc) rest2
        else if e = 't' then parseJsonStringAux ('\t' :: acc) rest2
        else if e = 'r' then parseJsonStringAux ('\r' :: acc) rest2
        else none
    else parseJsonStringAux (c :: acc) rest

/-- Consume leading decimal digits, accumulating their value. -/
def parseDigits (acc : Int) : List Char → Int × List Char
  | c :: rest =>
    if c.isDigit then parseDigits (acc * 10 + (Int.ofNat (c.toNat - '0'.toNat))) rest
    else (acc, c :: rest)
  | [] => (acc, [])

/-- Check that a list of characters starts with the given word, and
return the remainder. -/
def expectWord (w : List Char) (cs : List Char) : Option (List Char) :=
  match w, cs with
  | [], rest => some rest
  | c :: w2, d :: rest => if c = d then expectWord w2 rest else none
  | _ :: _, [] => none

mutual

/-- Fuel-based parser for a single JSON value. -/
def parseJsonValue : Nat → List Char → Option (Json × List Char)
  | 0, _ => none
  | fuel + 1, cs =>
    match skipWs cs with
    | [] => none
    | c :: rest =>
      if c = 'n' then (expectWord ['u', 'l', 'l'] rest).map fun r => (Json.null, r)
      else if c = 't' then (expectWord ['r', 'u', 'e'] rest).map fun r => (Json.bool true, r)
      else if c = 'f' then (expectWord ['a', 'l', 's', 'e'] rest).map fun r => (Json.bool false, r)
      else if c = '"' then (parseJsonStringAux [] rest).map fun p => (Json.str p.1, p.2)
      else if c = '[' then
        match skipWs rest with
        | d :: rest2 =>
          if d = ']' then some (Json.arr [], rest2)
          else (parseJsonItems fuel (d :: rest2)).map fun p => (Json.arr p.1, p.2)
        | [] => none
      else if c = Char.ofNat 123 then
        match skipWs rest with
        | d :: rest2 =>
          if d = Char.ofNat 125 then some (Json.obj [], rest2)
          else (parseJsonFields fuel (d :: rest2)).map fun p => (Json.obj p.1, p.2)
        | [] => none
      else if c = '-' then
        match rest with
        | d :: rest2 =>
          if d.isDigit then
            match parseDigits (Int.ofNat (d.toNat - '0'.toNat)) rest2 with
            | (n, rest3) => some (Json.num (-n), rest3)
          else none
        | [] => none
      else if c.isDigit then
        match parseDigits (Int.ofNat (c.toNat - '0'.toNat)) rest with
        | (n, rest2) => some (Json.num n, rest2)
      else none

/-- Parse one or more comma-separated array items; the closing bracket
is consumed. -/
def parseJsonItems : Nat → List Char → Option (List Json × List Char)
  | 0, _ => none
  | fuel + 1, cs =>
    match parseJsonValue fuel cs with
    | none => none
    | some (v, rest) =>
      match skipWs rest with
      | c :: rest2 =>
        if c = ',' then (parseJsonItems fuel rest2).map fun p => (v :: p.1, p.2)
        else if c = ']' then some ([v], rest2)
        else none
      | [] => none

/-- Parse one or more comma-separated object fields; the closing brace
is consumed. -/
def parseJsonFields : Nat → List Char → Option (List (String × Json) × List Char)
  | 0, _ => none
  | fuel + 1, cs =>
    match skipWs cs with
    | c :: rest =>
      if c = '"' then
        match parseJsonStringAux [] rest with
        | none => none
        | some (k, rest2) =>
          match skipWs rest2 with
          | d :: rest3 =>
            if d = ':' then
              match parseJsonValue fuel rest3 with
              | none => none
              | some (v, rest4) =>
                match skipWs rest4 with
                | e :: rest5 =>
                  if e = ',' then (parseJsonFields fuel rest5).map fun p => ((k, v) :: p.1, p.2)
                  else if e = Char.ofNat 125 then some ([(k, v)], rest5)
                  else none
                | [] => none
            else none
          | [] => none
      else none
    | [] => none

end

/-- Parse a complete JSON document, modelling `json.Unmarshal`: the
whole input must be consumed (up to trailing whitespace). -/
def parseJson (s : String) : Option Json :=
  match parseJsonValue (s.length + 1) s.data with
  | some (v, rest) => if skipWs rest = [] then some v else none
  | none => none

/-! ## Kubernetes data model (the fields this program reads or writes) -/

/-- `intstr.IntOrString`: a probe port reference, either a literal
integer or a symbolic port name.  (The Go type also has an invalid
default `Type` tag, unreachable for decoded values; it is not
modelled.) -/
inductive IntOrString where
  | int (n : Int) : IntOrString
  | str (s : String) : IntOrString
deriving DecidableEq, Repr

/-- `v1.HTTPGetAction`, restricted to the port field (the only field
this program reads). -/
structure HTTPGetAction where
  port : IntOrString
deriving DecidableEq, Repr

/-- `v1.Probe`, restricted to the HTTP-get handler. -/
structure Probe where
  httpGet : Option HTTPGetAction
deriving DecidableEq, Repr

/-- `v1.ContainerPort`, restricted to name and number. -/
structure ContainerPort where
  name : String
  containerPort : Int
deriving DecidableEq, Repr

/-- `v1.EnvVar`: literal value or a field reference
(`v1.EnvVarSource.FieldRef.FieldPath`). -/
structure EnvVar where
  name : String
  value : Option String
  fieldPath : Option String
deriving DecidableEq, Repr

/-- `v1.VolumeMount`, restricted to the fields the sidecar sets. -/
structure VolumeMount where
  name : String
  readOnly : Bool
  mountPath : String
deriving DecidableEq, Repr

/-- `v1.SecurityContext`, restricted to run-as-user. -/
structure SecurityContext where
  runAsUser : Option Int
deriving DecidableEq, Repr

/-- `v1.Container`, restricted to the fields this program reads or
writes. -/
structure Container where
  name : String
  image : String
  args : List String
  env : List EnvVar
  ports : List ContainerPort
  livenessProbe : Option Probe
  readinessProbe : Option Probe
  imagePullPolicy : String
  securityContext : Option SecurityContext
  volumeMounts : List VolumeMount
deriving DecidableEq, Repr

/-- `v1.Volume`, restricted to name and secret source
(`v1.VolumeSource.Secret.SecretName`). -/
structure Volume where
  name : String
  secretName : Option String
deriving DecidableEq, Repr

/-- `v1.PodSpec`, restricted to the fields this program reads or
writes. -/
structure PodSpec where
  containers : List Container
  volumes : List Volume
  serviceAccountName : String
deriving DecidableEq, Repr

/-- `v1.PodTemplateSpec`: metadata (as the label and annotation maps)
plus the pod spec. -/
structure PodTemplateSpec where
  annotations : List (String × String)
  labels : List (String × String)
  spec : PodSpec
deriving DecidableEq, Repr

/-- `proxyconfig.ProxyMeshConfig_AuthPolicy`. -/
inductive AuthPolicy where
  | none : AuthPolicy
  | mutualTLS : AuthPolicy
deriving DecidableEq, Repr

/-- The fields of `proxyconfig.ProxyMeshConfig` this program reads. -/
structure ProxyMeshConfig where
  proxyListenPort : Int
  authPolicy : AuthPolicy
  authCertsPath : String
deriving DecidableEq, Repr

/-- `inject.Params`. -/
structure Params where
  initImage : String
  proxyImage : String
  verbosity : Int
  sidecarProxyUID : Int
  version : String
  enableCoreDump : Bool
  mesh : ProxyMeshConfig
  meshConfigMapName : String
  includeIPRanges : String
deriving DecidableEq, Repr

/-! ## Go string-map operations on the association-list model -/

/-- Go map read `m[k]` (with the `ok` bit as `Option`). -/
def mapLookup (k : String) : List (String × String) → Option String
  | [] => none
  | (k0, v0) :: rest => if k0 = k then some v0 else mapLookup k rest

/-- Go map write `m[k] = v`: replace the binding if present, otherwise
add it. -/
def mapInsert (k v : String) : List (String × String) → List (String × String)
  | [] => [(k, v)]
  | (k0, v0) :: rest => if k0 = k then (k, v) :: rest else (k0, v0) :: mapInsert k v rest

/-! ## Errors -/

/-- Per-probe resolution errors from `resolvePort` (the messages built
with `fmt.Errorf`, keyed by the offending port name). -/
inductive ResolveErr where
  | missingNamedPort (name : String) : ResolveErr
deriving DecidableEq, Repr

/-- The errors `injectIntoPodTemplateSpec` and `IntoResourceFile` can
return: a YAML decode failure, a JSON decode failure of the
init-containers blob, or the `multierror` aggregate from
`healthPorts`. -/
inductive Err where
  | yamlDecode : Err
  | jsonDecode : Err
  | aggregate (errs : List ResolveErr) : Err
deriving DecidableEq, Repr

/-! ## Health Port Resolver (`resolvePort`, `healthPorts`) -/

/-- `resolvePort`: a literal port is used directly; a named port is
looked up in the same container's declared port list. -/
def resolvePort (c : Container) : IntOrString → Except ResolveErr Int
  | .int n => .ok n
  | .str s =>
    match c.ports.find? (fun named => named.name == s) with
    | some named => .ok named.containerPort
    | none => .error (ResolveErr.missingNamedPort s)

/-- The probe resolutions attempted for one container, in the order the
Go loop body performs them: liveness HTTP-get probe first, then
readiness. -/
def probeResults (c : Container) : List (Except ResolveErr Int) :=
  (match c.livenessProbe with
   | some pr =>
     match pr.httpGet with
     | some hg => [resolvePort c hg.port]
     | none => []
   | none => []) ++
  (match c.readinessProbe with
   | some pr =>
     match pr.httpGet with
     | some hg => [resolvePort c hg.port]
     | none => []
   | none => [])

/-- Insert into a strictly ascending list, keeping it sorted and
duplicate-free.  This models the Go `map[int]bool` set followed by
`sort.Ints`: since that combination is insensitive to insertion order,
the incremental sorted-set insertion yields the same final list. -/
def insertSorted (n : Int) : List Int → List Int
  | [] => [n]
  | m :: rest =>
    if n < m then n :: m :: rest
    else if n = m then m :: rest
    else m :: insertSorted n rest

/-- Collect the successfully resolved ports into the sorted set. -/
def collectPorts : List (Except ResolveErr Int) → List Int
  | [] => []
  | .ok n :: rest => insertSorted n (collectPorts rest)
  | .error _ :: rest => collectPorts rest

/-- Collect the resolution errors in encounter order, modelling
`multierror.Append` (nil iff the list is empty). -/
def collectErrs : List (Except ResolveErr Int) → List ResolveErr
  | [] => []
  | .ok _ :: rest => collectErrs rest
  | .error e :: rest => e :: collectErrs rest

/-- `healthPorts`: resolve every HTTP-get liveness/readiness probe port
of every container, returning the sorted duplicate-free port list
alongside the aggregated errors. -/
def healthPorts (t : PodTemplateSpec) : List Int × List ResolveErr :=
  let results := t.spec.containers.flatMap probeResults
  (collectPorts results, collectErrs results)

/-! ## Sidecar Mutator (`injectIntoPodTemplateSpec`) -/

def istioSidecarAnnotationSidecarKey : String := "alpha.istio.io/sidecar"
def istioSidecarAnnotationSidecarValue : String := "injected"
def istioSidecarAnnotationVersionKey : String := "alpha.istio.io/version"
def initContainersKey : String := "pod.beta.kubernetes.io/init-containers"
def initContainerName : String := "init"
def proxyContainerName : String := "proxy"
def istioCertVolumeName : String := "istio-certs"
def istioCertSecretBase : String := "istio."

/-- The fixed `enableCoreDumpContainer` record, with its object keys in
the sorted order `json.Marshal` emits (`encoding/json` sorts map
keys). -/
def enableCoreDumpJson : Json :=
  Json.obj
    [("args", Json.arr [Json.str "-c",
        Json.str "sysctl -w kernel.core_pattern=/tmp/core.%e.%p.%t && ulimit -c unlimited"]),
     ("command", Json.arr [Json.str "/bin/sh"]),
     ("image", Json.str "alpine"),
     ("imagePullPolicy", Json.str "Always"),
     ("name", Json.str "enable-core-dump"),
     ("securityContext", Json.obj [("privileged", Json.bool true)])]

/-- The `initArgs` slice: `-p <proxyListenPort> -u <uid>`, plus
`-i <cidrRanges>` only when a CIDR list was configured. -/
def initArgs (p : Params) : List String :=
  ["-p", toString p.mesh.proxyListenPort, "-u", toString p.sidecarProxyUID] ++
    (if p.includeIPRanges ≠ "" then ["-i", p.includeIPRanges] else [])

/-- The network-setup init-container record appended to the
init-containers blob, keys in `json.Marshal` sorted order. -/
def initContainerJson (p : Params) : Json :=
  Json.obj
    [("args", Json.arr ((initArgs p).map Json.str)),
     ("image", Json.str p.initImage),
     ("imagePullPolicy", Json.str "Always"),
     ("name", Json.str initContainerName),
     ("securityContext", Json.obj
        [("capabilities", Json.obj [("add", Json.arr [Json.str "NET_ADMIN"])])])]

/-- The full init-container sequence written back: existing entries,
then the network-setup entry, then the core-dump entry if enabled. -/
def initEntries (p : Params) (pre : List Json) : List Json :=
  pre ++ [initContainerJson p] ++ (if p.enableCoreDump then [enableCoreDumpJson] else [])

/-- Model of `json.Unmarshal([]byte(s), &annotations)` with
`annotations []interface{}`: an absent annotation yields the empty
sequence; a present one must parse as a JSON array (or `null`, which
unmarshals to a nil slice), anything else is a decode error. -/
def decodeInitList : Option String → Option (List Json)
  | none => some []
  | some s =>
    match parseJson s with
    | some (Json.arr xs) => some xs
    | some Json.null => some []
    | _ => none

/-- The annotation map after the marker and version writes
(lines 108-109). -/
def annsAfterMarker (p : Params) (t : PodTemplateSpec) : List (String × String) :=
  mapInsert istioSidecarAnnotationVersionKey p.version
    (mapInsert istioSidecarAnnotationSidecarKey istioSidecarAnnotationSidecarValue t.annotations)

/-- The annotation map after the init-containers write (line 145). -/
def annsAfterInit (p : Params) (t : PodTemplateSpec) (pre : List Json) : List (String × String) :=
  mapInsert initContainersKey (Json.render (Json.arr (initEntries p pre))) (annsAfterMarker p t)

/-- The sidecar argument list (lines 148-166). -/
def sidecarArgs (p : Params) (ports : List Int) : List String :=
  ["proxy", "sidecar"] ++
    (if p.verbosity > 0 then ["-v", toString p.verbosity] else []) ++
    (if p.meshConfigMapName ≠ "" then ["--meshConfig", p.meshConfigMapName] else []) ++
    ports.flatMap (fun port => ["--passthrough", toString port])

/-- The sidecar's volume mounts: exactly the certificate mount under
mutual TLS, nothing otherwise (lines 168-174). -/
def sidecarVolumeMounts (p : Params) : List VolumeMount :=
  if p.mesh.authPolicy = AuthPolicy.mutualTLS then
    [{ name := istioCertVolumeName, readOnly := true, mountPath := p.mesh.authCertsPath }]
  else []

/-- The pod spec's volume list after injection: under mutual TLS a
certificate volume sourced from the secret `istio.<serviceAccount>` is
appended, with the service account defaulting to `default`
(lines 176-187). -/
def injectedVolumes (p : Params) (s : PodSpec) : List Volume :=
  if p.mesh.authPolicy = AuthPolicy.mutualTLS then
    s.volumes ++
      [{ name := istioCertVolumeName,
         secretName := some (istioCertSecretBase ++
           (if s.serviceAccountName = "" then "default" else s.serviceAccountName)) }]
  else s.volumes

/-- The sidecar proxy container (lines 190-221). -/
def sidecarContainer (p : Params) (ports : List Int) : Container :=
  { name := proxyContainerName,
    image := p.proxyImage,
    args := sidecarArgs p ports,
    env := [{ name := "POD_NAME", value := none, fieldPath := some "metadata.name" },
            { name := "POD_NAMESPACE", value := none, fieldPath := some "metadata.namespace" },
            { name := "POD_IP", value := none, fieldPath := some "status.podIP" }],
    ports := [],
    livenessProbe := none,
    readinessProbe := none,
    imagePullPolicy := "Always",
    securityContext := some { runAsUser := some p.sidecarProxyUID },
    volumeMounts := sidecarVolumeMounts p }

/-- The fully mutated template on the success path. -/
def injectSuccess (p : Params) (t : PodTemplateSpec) (pre : List Json) (ports : List Int) :
    PodTemplateSpec :=
  { t with
    annotations := annsAfterInit p t pre,
    spec := { t.spec with
              volumes := injectedVolumes p t.spec,
              containers := t.spec.containers ++ [sidecarContainer p ports] } }

/-- `injectIntoPodTemplateSpec`.  The Go function mutates the template
in place and returns an error; this embedding returns the template as
left by the function together with the optional error, so the partial
mutation visible on the error paths is preserved.  (On a nil
annotations map the Go code first installs an empty map; the list model
identifies the two, and an empty map never contains the marker key, so
the guard collapses to the lookup below.) -/
def inject (p : Params) (t : PodTemplateSpec) : PodTemplateSpec × Option Err :=
  if (mapLookup istioSidecarAnnotationSidecarKey t.annotations).isSome then
    (t, none)
  else
    match decodeInitList (mapLookup initContainersKey (annsAfterMarker p t)) with
    | none => ({ t with annotations := annsAfterMarker p t }, some Err.jsonDecode)
    | some pre =>
      let hp := healthPorts t
      if hp.2 = [] then
        (injectSuccess p t pre hp.1, none)
      else
        ({ t with annotations := annsAfterInit p t pre }, some (Err.aggregate hp.2))

/-! ## Document Stream Processor (`IntoResourceFile`) -/

/-- The five recognized workload kinds (the keys of the `kinds`
dispatch table). -/
def recognizedKinds : List String :=
  ["Job", "DaemonSet", "ReplicaSet", "Deployment", "ReplicationController"]

/-- One input YAML document, as the external YAML decoder presents it:
the raw bytes, the `kind` field of the `TypeMeta` peek (`none` models a
decode failure), and the embedded pod template of the full typed decode
(`none` models a decode failure; only consulted for recognized
kinds). -/
structure Doc where
  raw : String
  parsedKind : Option String
  decodedTemplate : Option PodTemplateSpec
deriving DecidableEq, Repr

/-- Model of the external `yaml.Marshal` re-encoding of a decoded
workload object: a canonical rendering of the kind and the fields of
the embedded pod template carried by this embedding.  Its exact shape
is not code of this repository; what the claims use is that
recognized-kind output is this re-encoding, not the raw input bytes. -/
def yamlMarshal (kind : String) (t : PodTemplateSpec) : String :=
  "kind: " ++ kind ++ "\nannotations:\n" ++
    String.join (t.annotations.map fun kv => "  " ++ kv.1 ++ ": " ++ renderJsonString kv.2 ++ "\n") ++
    "labels:\n" ++
    String.join (t.labels.map fun kv => "  " ++ kv.1 ++ ": " ++ renderJsonString kv.2 ++ "\n") ++
    "serviceAccountName: " ++ t.spec.serviceAccountName ++ "\n" ++
    "containers: " ++ String.intercalate "," (t.spec.containers.map fun c => c.name) ++ "\n" ++
    "volumes: " ++ String.intercalate "," (t.spec.volumes.map fun v => v.name) ++ "\n"

/-- Process one document of the stream (one iteration of the
`IntoResourceFile` loop): returns the bytes written for it — the
re-encoded object for recognized kinds, the raw bytes otherwise, always
followed by the `---` separator line — or the error that aborts the
run. -/
def processDoc (p : Params) (d : Doc) : Except Err String :=
  match d.parsedKind with
  | none => Except.error Err.yamlDecode
  | some kind =>
    if kind ∈ recognizedKinds then
      match d.decodedTemplate with
      | none => Except.error Err.yamlDecode
      | some t =>
        match inject p t with
        | (_, some e) => Except.error e
        | (t2, none) => Except.ok (yamlMarshal kind t2 ++ "---\n")
    else
      Except.ok (d.raw ++ "---\n")

/-- `IntoResourceFile` over an already-split document stream: emit each
document's bytes in order, aborting the whole run on the first
error. -/
def intoResourceFile (p : Params) : List Doc → Except Err String
  | [] => Except.ok ""
  | d :: rest =>
    match processDoc p d with
    | Except.error e => Except.error e
    | Except.ok s =>
      match intoResourceFile p rest with
      | Except.error e => Except.error e
      | Except.ok s2 => Except.ok (s ++ s2)

/-! ## Helper lemmas -/

theorem mapLookup_mapInsert_self (k v : String) (l : List (String × String)) :
    mapLookup k (mapInsert k v l) = some v := by
  induction l with
  | nil => simp [mapInsert, mapLookup]
  | cons kv rest ih =>
    by_cases h : kv.1 = k
    · simp [mapInsert, mapLookup, h]
    · simp [mapInsert, mapLookup, h, ih]

theorem mapLookup_mapInsert_ne (k k' v : String) (l : List (String × String)) (h : k ≠ k') :
    mapLookup k (mapInsert k' v l) = mapLookup k l := by
  induction l with
  | nil => simp [mapInsert, mapLookup, Ne.symm h]
  | cons kv rest ih =>
    by_cases h0 : kv.1 = k'
    · simp [mapInsert, mapLookup, h0, Ne.symm h]
    · by_cases h1 : kv.1 = k
      · simp [mapInsert, mapLookup, h0, h1, h]
      · simp [mapInsert, mapLookup, h0, h1, ih]

theorem mem_insertSorted (x n : Int) (l : List Int) :
    x ∈ insertSorted n l ↔ x = n ∨ x ∈ l := by
  induction l with
  | nil => simp [insertSorted]
  | cons m rest ih =>
    rw [insertSorted]
    by_cases h1 : n < m
    · rw [if_pos h1]
      simp [List.mem_cons]
    · rw [if_neg h1]
      by_cases h2 : n = m
      · subst h2
        rw [if_pos rfl]
        simp [List.mem_cons]
      · rw [if_neg h2]
        simp [List.mem_cons, ih]
        tauto

theorem pairwise_insertSorted (n : Int) (l : List Int) (h : l.Pairwise (· < ·)) :
    (insertSorted n l).Pairwise (· < ·) := by
  induction l with
  | nil => simp [insertSorted]
  | cons m rest ih =>
    rw [insertSorted]
    rcases List.pairwise_cons.mp h with ⟨hm, hrest⟩
    by_cases h1 : n < m
    · rw [if_pos h1]
      refine List.pairwise_cons.mpr ⟨fun x hx => ?_, h⟩
      rcases List.mem_cons.mp hx with rfl | hx
      · exact h1
      · exact lt_trans h1 (hm x hx)
    · rw [if_neg h1]
      by_cases h2 : n = m
      · rw [if_pos h2]
        exact h
      · rw [if_neg h2]
        refine List.pairwise_cons.mpr ⟨fun x hx => ?_, ih hrest⟩
        rcases (mem_insertSorted x n rest).mp hx with rfl | hx
        · exact lt_of_le_of_ne (not_lt.mp h1) (Ne.symm h2)
        · exact hm x hx

theorem mem_collectPorts (x : Int) (rs : List (Except ResolveErr Int)) :
    x ∈ collectPorts rs ↔ Except.ok x ∈ rs := by
  induction rs with
  | nil => simp [collectPorts]
  | cons r rest ih =>
    cases r with
    | ok n =>
      rw [collectPorts, mem_insertSorted]
      simp [List.mem_cons, ih]
    | error e =>
      rw [collectPorts]
      simp [List.mem_cons, ih]

theorem pairwise_collectPorts (rs : List (Except ResolveErr Int)) :
    (collectPorts rs).Pairwise (· < ·) := by
  induction rs with
  | nil => simp [collectPorts]
  | cons r rest ih =>
    cases r with
    | ok n => exact pairwise_insertSorted n _ ih
    | error e => exact ih

theorem mem_collectErrs (e : ResolveErr) (rs : List (Except ResolveErr Int)) :
    e ∈ collectErrs rs ↔ Except.error e ∈ rs := by
  induction rs with
  | nil => simp [collectErrs]
  | cons r rest ih =>
    cases r with
    | ok n =>
      rw [collectErrs]
      simp [List.mem_cons, ih]
    | error e2 =>
      rw [collectErrs]
      simp [List.mem_cons, ih]

theorem mapLookup_init_annsAfterMarker (p : Params) (t : PodTemplateSpec) :
    mapLookup initContainersKey (annsAfterMarker p t) =
      mapLookup initContainersKey t.annotations := by
  unfold annsAfterMarker
  rw [mapLookup_mapInsert_ne _ _ _ _ (by decide),
      mapLookup_mapInsert_ne _ _ _ _ (by decide)]

theorem mapLookup_marker_annsAfterMarker (p : Params) (t : PodTemplateSpec) :
    mapLookup istioSidecarAnnotationSidecarKey (annsAfterMarker p t) =
      some istioSidecarAnnotationSidecarValue := by
  unfold annsAfterMarker
  rw [mapLookup_mapInsert_ne _ _ _ _ (by decide), mapLookup_mapInsert_self]

theorem mapLookup_marker_annsAfterInit (p : Params) (t : PodTemplateSpec) (pre : List Json) :
    mapLookup istioSidecarAnnotationSidecarKey (annsAfterInit p t pre) =
      some istioSidecarAnnotationSidecarValue := by
  unfold annsAfterInit
  rw [mapLookup_mapInsert_ne _ _ _ _ (by decide), mapLookup_marker_annsAfterMarker]

theorem inject_success_eq (p : Params) (t : PodTemplateSpec) (pre : List Json)
    (hm : mapLookup istioSidecarAnnotationSidecarKey t.annotations = none)
    (hd : decodeInitList (mapLookup initContainersKey (annsAfterMarker p t)) = some pre)
    (hh : (healthPorts t).2 = []) :
    inject p t = (injectSuccess p t pre (healthPorts t).1, none) := by
  unfold inject
  rw [hm, hd]
  simp [hh]

theorem inject_aggregate_eq (p : Params) (t : PodTemplateSpec) (pre : List Json)
    (hm : mapLookup istioSidecarAnnotationSidecarKey t.annotations = none)
    (hd : decodeInitList (mapLookup initContainersKey (annsAfterMarker p t)) = some pre)
    (hh : (healthPorts t).2 ≠ []) :
    inject p t = ({ t with annotations := annsAfterInit p t pre },
      some (Err.aggregate (healthPorts t).2)) := by
  unfold inject
  rw [hm, hd]
  simp [hh]

theorem inject_none_inv (p : Params) (t t' : PodTemplateSpec)
    (hm : mapLookup istioSidecarAnnotationSidecarKey t.annotations = none)
    (h : inject p t = (t', none)) :
    ∃ pre, decodeInitList (mapLookup initContainersKey (annsAfterMarker p t)) = some pre ∧
      (healthPorts t).2 = [] ∧ t' = injectSuccess p t pre (healthPorts t).1 := by
  unfold inject at h
  rw [hm] at h
  simp only [Option.isSome_none, Bool.false_eq_true, if_false] at h
  cases hd : decodeInitList (mapLookup initContainersKey (annsAfterMarker p t)) with
  | none =>
    rw [hd] at h
    simp at h
  | some pre =>
    rw [hd] at h
    by_cases hh : (healthPorts t).2 = []
    · simp only [hh, if_pos] at h
      refine ⟨pre, rfl, hh, ?_⟩
      simp at h
      exact h.symm
    · simp [hh] at h

theorem inject_guard_of_isSome (p : Params) (t : PodTemplateSpec)
    (hm : (mapLookup istioSidecarAnnotationSidecarKey t.annotations).isSome = true) :
    inject p t = (t, none) := by
  unfold inject
  rw [hm]
  simp

theorem marker_isSome_after_inject (p : Params) (t : PodTemplateSpec) :
    (mapLookup istioSidecarAnnotationSidecarKey (inject p t).1.annotations).isSome = true := by
  cases hm : mapLookup istioSidecarAnnotationSidecarKey t.annotations with
  | some v =>
    rw [inject_guard_of_isSome p t (by rw [hm]; rfl)]
    rw [hm]
    rfl
  | none =>
    cases hd : decodeInitList (mapLookup initContainersKey (annsAfterMarker p t)) with
    | none =>
      unfold inject
      rw [hm, hd]
      simp [mapLookup_marker_annsAfterMarker]
    | some pre =>
      by_cases hh : (healthPorts t).2 = []
      · rw [inject_success_eq p t pre hm hd hh]
        simp [injectSuccess, mapLookup_marker_annsAfterInit]
      · rw [inject_aggregate_eq p t pre hm hd hh]
        simp [mapLookup_marker_annsAfterInit]

/-! ## Concrete inputs for witnesses and counterexamples -/

def exMesh : ProxyMeshConfig :=
  { proxyListenPort := 15001, authPolicy := AuthPolicy.mutualTLS, authCertsPath := "/etc/certs" }

def exParams : Params :=
  { initImage := "docker.io/istio/init:test",
    proxyImage := "docker.io/istio/proxy_debug:test",
    verbosity := 2, sidecarProxyUID := 1337, version := "12345",
    enableCoreDump := true, mesh := exMesh,
    meshConfigMapName := "istio", includeIPRanges := "10.1.0.0/16" }

def exAppContainer : Container :=
  { name := "app", image := "app:1", args := ["serve"], env := [],
    ports := [{ name := "http", containerPort := 80 }],
    livenessProbe := some { httpGet := some { port := IntOrString.str "http" } },
    readinessProbe := some { httpGet := some { port := IntOrString.int 8080 } },
    imagePullPolicy := "IfNotPresent", securityContext := none, volumeMounts := [] }

def exTpl : PodTemplateSpec :=
  { annotations := [("pod.beta.kubernetes.io/init-containers", "[\x7b\"name\":\"pre\"\x7d]")],
    labels := [("app", "hello")],
    spec := { containers := [exAppContainer], volumes := [], serviceAccountName := "" } }

/-- A template whose only probe references a port name declared
nowhere, so health-port resolution reports an error. -/
def badTpl : PodTemplateSpec :=
  { annotations := [], labels := [],
    spec := { containers :=
                [{ name := "app", image := "app:1", args := [], env := [], ports := [],
                   livenessProbe := some { httpGet := some { port := IntOrString.str "status" } },
                   readinessProbe := none,
                   imagePullPolicy := "IfNotPresent", securityContext := none,
                   volumeMounts := [] }],
              volumes := [], serviceAccountName := "" } }

/-- A template already carrying the marker key, under a value other
than `injected`. -/
def markedTpl : PodTemplateSpec :=
  { annotations := [("alpha.istio.io/sidecar", "ignore")], labels := [],
    spec := { containers := [], volumes := [], serviceAccountName := "" } }

/-- An already-injected template as decoded from a document. -/
def injectedDocTpl : PodTemplateSpec :=
  { annotations := [("alpha.istio.io/sidecar", "injected")], labels := [],
    spec := { containers := [], volumes := [], serviceAccountName := "" } }

/-- A recognized-kind document whose template is already injected and
whose raw bytes carry a comment no re-encoding reproduces. -/
def injectedDoc : Doc :=
  { raw := "# original comment\nkind: Deployment\n",
    parsedKind := some "Deployment",
    decodedTemplate := some injectedDocTpl }

/-- An unrecognized-kind document. -/
def svcDoc : Doc :=
  { raw := "kind: Service\nmetadata: x\n", parsedKind := some "Service",
    decodedTemplate := none }

/-! ## Claims -/

/-- C1, counterexample: on a template whose only probe names an
undeclared port, `inject` returns the aggregated resolution error and
does not append the sidecar container — the error is immediately
fatal, contrary to the claim. -/
theorem inject_unresolved_port_fatal_cex :
    (inject exParams badTpl).2 = some (Err.aggregate [ResolveErr.missingNamedPort "status"]) ∧
    (inject exParams badTpl).1.spec.containers = badTpl.spec.containers := by
  constructor <;> rfl

/-- C1, amended: if the Health Port Resolver reports resolution errors,
the Sidecar Mutator fails: `inject` returns the aggregated error
without building the sidecar, leaving the container list unchanged
(only the marker, version and init-containers annotations were already
written). -/
theorem inject_unresolved_port_aborts (p : Params) (t : PodTemplateSpec) (pre : List Json)
    (hm : mapLookup istioSidecarAnnotationSidecarKey t.annotations = none)
    (hd : decodeInitList (mapLookup initContainersKey t.annotations) = some pre)
    (hh : (healthPorts t).2 ≠ []) :
    inject p t = ({ t with annotations := annsAfterInit p t pre },
      some (Err.aggregate (healthPorts t).2)) ∧
    (inject p t).1.spec.containers = t.spec.containers := by
  have hd2 : decodeInitList (mapLookup initContainersKey (annsAfterMarker p t)) = some pre := by
    rw [mapLookup_init_annsAfterMarker]
    exact hd
  refine ⟨inject_aggregate_eq p t pre hm hd2 hh, ?_⟩
  rw [inject_aggregate_eq p t pre hm hd2 hh]

theorem inject_unresolved_port_aborts_witness :
    mapLookup istioSidecarAnnotationSidecarKey badTpl.annotations = none ∧
    decodeInitList (mapLookup initContainersKey badTpl.annotations) = some [] ∧
    (healthPorts badTpl).2 ≠ [] ∧
    inject exParams badTpl = ({ badTpl with annotations := annsAfterInit exParams badTpl [] },
      some (Err.aggregate (healthPorts badTpl).2)) :=
  ⟨rfl, rfl, by decide,
   (inject_unresolved_port_aborts exParams badTpl [] rfl rfl (by decide)).1⟩

/-- C2: injection is idempotent at the mutator level — a template
already carrying the marker key is returned unchanged with success,
and a second run of `inject` on any template's result is a no-op. -/
theorem inject_idempotent (p : Params) (t : PodTemplateSpec) :
    ((mapLookup istioSidecarAnnotationSidecarKey t.annotations).isSome = true →
      inject p t = (t, none)) ∧
    inject p (inject p t).1 = ((inject p t).1, none) :=
  ⟨fun hm => inject_guard_of_isSome p t hm,
   inject_guard_of_isSome p (inject p t).1 (marker_isSome_after_inject p t)⟩

theorem inject_idempotent_witness :
    (mapLookup istioSidecarAnnotationSidecarKey markedTpl.annotations).isSome = true ∧
    inject exParams markedTpl = (markedTpl, none) :=
  ⟨rfl, (inject_idempotent exParams markedTpl).1 rfl⟩

/-- C9: the idempotency guard keys on presence alone — whatever string
the marker annotation maps to, `inject` returns the template unchanged
with success. -/
theorem inject_marker_any_value (p : Params) (t : PodTemplateSpec) (v : String)
    (hm : mapLookup istioSidecarAnnotationSidecarKey t.annotations = some v) :
    inject p t = (t, none) :=
  inject_guard_of_isSome p t (by rw [hm]; rfl)

theorem inject_marker_any_value_witness :
    mapLookup istioSidecarAnnotationSidecarKey markedTpl.annotations = some "ignore" ∧
    inject exParams markedTpl = (markedTpl, none) :=
  ⟨rfl, inject_marker_any_value exParams markedTpl "ignore" rfl⟩

/-- C4: after successful injection the sidecar is appended last and its
argument sequence is exactly `proxy sidecar`, then `-v <verbosity>` iff
verbosity > 0, then `--meshConfig <name>` iff a config-map name was
supplied, then one `--passthrough <p>` pair per resolved health port,
over the strictly ascending (hence duplicate-free) port list. -/
theorem inject_sidecar_args (p : Params) (t t' : PodTemplateSpec)
    (hm : mapLookup istioSidecarAnnotationSidecarKey t.annotations = none)
    (h : inject p t = (t', none)) :
    t'.spec.containers = t.spec.containers ++ [sidecarContainer p (healthPorts t).1] ∧
    (sidecarContainer p (healthPorts t).1).args =
      ["proxy", "sidecar"] ++
        (if p.verbosity > 0 then ["-v", toString p.verbosity] else []) ++
        (if p.meshConfigMapName ≠ "" then ["--meshConfig", p.meshConfigMapName] else []) ++
        (healthPorts t).1.flatMap (fun port => ["--passthrough", toString port]) ∧
    ((healthPorts t).1).Pairwise (· < ·) ∧
    ((healthPorts t).1).Nodup := by
  obtain ⟨pre, hd, hh, rfl⟩ := inject_none_inv p t t' hm h
  have hp : (healthPorts t).1 = collectPorts (t.spec.containers.flatMap probeResults) := rfl
  refine ⟨rfl, rfl, ?_, ?_⟩
  · rw [hp]
    exact pairwise_collectPorts _
  · rw [hp]
    exact (pairwise_collectPorts _).imp (fun hab => ne_of_lt hab)

theorem inject_sidecar_args_witness :
    mapLookup istioSidecarAnnotationSidecarKey exTpl.annotations = none ∧
    (inject exParams exTpl).1.spec.containers =
      exTpl.spec.containers ++ [sidecarContainer exParams (healthPorts exTpl).1] :=
  ⟨rfl, (inject_sidecar_args exParams exTpl (inject exParams exTpl).1 rfl rfl).1⟩

/-- C5: the Health Port Resolver uses a literal port directly, looks a
symbolic name up only in the same container's declared ports, turns a
missing name into a recorded error while the remaining probes are still
processed (membership in the aggregate is exactly per-probe failure),
and returns each resolved port exactly once in ascending order. -/
theorem healthPorts_spec :
    (∀ (c : Container) (n : Int), resolvePort c (IntOrString.int n) = Except.ok n) ∧
    (∀ (c : Container) (s : String) (named : ContainerPort),
      c.ports.find? (fun q => q.name == s) = some named →
      resolvePort c (IntOrString.str s) = Except.ok named.containerPort) ∧
    (∀ (c : Container) (s : String),
      c.ports.find? (fun q => q.name == s) = none →
      resolvePort c (IntOrString.str s) = Except.error (ResolveErr.missingNamedPort s)) ∧
    (∀ t : PodTemplateSpec, ((healthPorts t).1).Pairwise (· < ·)) ∧
    (∀ (t : PodTemplateSpec) (x : Int),
      x ∈ (healthPorts t).1 ↔ Except.ok x ∈ t.spec.containers.flatMap probeResults) ∧
    (∀ (t : PodTemplateSpec) (e : ResolveErr),
      e ∈ (healthPorts t).2 ↔ Except.error e ∈ t.spec.containers.flatMap probeResults) := by
  refine ⟨fun c n => rfl, fun c s named hf => ?_, fun c s hf => ?_,
          fun t => pairwise_collectPorts _, fun t x => mem_collectPorts _ _,
          fun t e => mem_collectErrs _ _⟩
  · simp [resolvePort, hf]
  · simp [resolvePort, hf]

theorem healthPorts_spec_witness :
    exAppContainer.ports.find? (fun q => q.name == "http") =
      some { name := "http", containerPort := 80 } ∧
    resolvePort exAppContainer (IntOrString.str "http") = Except.ok (80 : Int) :=
  ⟨rfl, healthPorts_spec.2.1 exAppContainer "http" { name := "http", containerPort := 80 } rfl⟩

/-- C6: after successful injection the init-containers annotation holds
the JSON encoding of the pre-existing entries in order, then the
network-setup entry (configured image, args `-p <port> -u <uid>` plus
`-i <ranges>` iff a CIDR list was configured, NET_ADMIN capability),
then the core-dump entry iff core-dump capture is enabled. -/
theorem inject_init_blob (p : Params) (t t' : PodTemplateSpec) (pre : List Json)
    (hm : mapLookup istioSidecarAnnotationSidecarKey t.annotations = none)
    (hd : decodeInitList (mapLookup initContainersKey t.annotations) = some pre)
    (h : inject p t = (t', none)) :
    mapLookup initContainersKey t'.annotations =
      some (Json.render (Json.arr (pre ++
        [Json.obj
          [("args", Json.arr (((["-p", toString p.mesh.proxyListenPort,
              "-u", toString p.sidecarProxyUID] ++
              (if p.includeIPRanges ≠ "" then ["-i", p.includeIPRanges] else [])).map Json.str))),
           ("image", Json.str p.initImage),
           ("imagePullPolicy", Json.str "Always"),
           ("name", Json.str "init"),
           ("securityContext", Json.obj
             [("capabilities", Json.obj [("add", Json.arr [Json.str "NET_ADMIN"])])])]] ++
        (if p.enableCoreDump then [enableCoreDumpJson] else [])))) := by
  obtain ⟨pre2, hd2, hh, rfl⟩ := inject_none_inv p t t' hm h
  rw [mapLookup_init_annsAfterMarker, hd] at hd2
  injection hd2 with hpre
  subst hpre
  show mapLookup initContainersKey (annsAfterInit p t pre) = _
  rw [annsAfterInit, mapLookup_mapInsert_self]
  rfl

theorem inject_init_blob_witness :
    mapLookup istioSidecarAnnotationSidecarKey exTpl.annotations = none ∧
    decodeInitList (mapLookup initContainersKey exTpl.annotations) =
      some [Json.obj [("name", Json.str "pre")]] ∧
    mapLookup initContainersKey (inject exParams exTpl).1.annotations =
      some (Json.render (Json.arr ([Json.obj [("name", Json.str "pre")]] ++
        [initContainerJson exParams] ++ [enableCoreDumpJson]))) :=
  ⟨rfl, rfl, by
    have h := inject_init_blob exParams exTpl (inject exParams exTpl).1
      [Json.obj [("name", Json.str "pre")]] rfl rfl rfl
    exact h⟩

/-- C7: after successful injection, under mutual TLS the sidecar
carries exactly one read-only certificate mount at the configured path
and exactly one volume sourced from the secret `istio.<serviceAccount>`
(`default` when unset) is appended to the pod spec; under any other
policy, neither is added. -/
theorem inject_mtls_cert (p : Params) (t t' : PodTemplateSpec)
    (hm : mapLookup istioSidecarAnnotationSidecarKey t.annotations = none)
    (h : inject p t = (t', none)) :
    t'.spec.containers = t.spec.containers ++ [sidecarContainer p (healthPorts t).1] ∧
    (p.mesh.authPolicy = AuthPolicy.mutualTLS →
      t'.spec.volumes = t.spec.volumes ++
        [{ name := istioCertVolumeName,
           secretName := some ("istio." ++
             (if t.spec.serviceAccountName = "" then "default"
              else t.spec.serviceAccountName)) }] ∧
      (sidecarContainer p (healthPorts t).1).volumeMounts =
        [{ name := istioCertVolumeName, readOnly := true,
           mountPath := p.mesh.authCertsPath }]) ∧
    (p.mesh.authPolicy ≠ AuthPolicy.mutualTLS →
      t'.spec.volumes = t.spec.volumes ∧
      (sidecarContainer p (healthPorts t).1).volumeMounts = []) := by
  obtain ⟨pre, hd, hh, rfl⟩ := inject_none_inv p t t' hm h
  refine ⟨rfl, fun hmtls => ⟨?_, ?_⟩, fun hn => ⟨?_, ?_⟩⟩
  · show injectedVolumes p t.spec = _
    simp only [injectedVolumes, if_pos hmtls]
    rfl
  · show (sidecarContainer p (healthPorts t).1).volumeMounts = _
    simp only [sidecarContainer, sidecarVolumeMounts, if_pos hmtls]
  · show injectedVolumes p t.spec = _
    simp only [injectedVolumes, if_neg hn]
  · show (sidecarContainer p (healthPorts t).1).volumeMounts = _
    simp only [sidecarContainer, sidecarVolumeMounts, if_neg hn]

theorem inject_mtls_cert_witness :
    mapLookup istioSidecarAnnotationSidecarKey exTpl.annotations = none ∧
    exParams.mesh.authPolicy = AuthPolicy.mutualTLS ∧
    (inject exParams exTpl).1.spec.volumes =
      exTpl.spec.volumes ++
        [{ name := istioCertVolumeName, secretName := some "istio.default" }] :=
  ⟨rfl, rfl, by
    have h := ((inject_mtls_cert exParams exTpl (inject exParams exTpl).1 rfl rfl).2.1 rfl).1
    exact h⟩

/-- C10, frame condition: a successful injection changes only the three
annotation keys, appends exactly one volume iff the policy is mutual
TLS, and appends exactly the sidecar container last; labels, the
service-account name and all pre-existing containers (as a preserved
list prefix) are untouched, and every other annotation key reads as
before. -/
theorem inject_frame (p : Params) (t t' : PodTemplateSpec)
    (hm : mapLookup istioSidecarAnnotationSidecarKey t.annotations = none)
    (h : inject p t = (t', none)) :
    t'.labels = t.labels ∧
    t'.spec.serviceAccountName = t.spec.serviceAccountName ∧
    t'.spec.containers = t.spec.containers ++ [sidecarContainer p (healthPorts t).1] ∧
    (p.mesh.authPolicy = AuthPolicy.mutualTLS →
      t'.spec.volumes = t.spec.volumes ++
        [{ name := istioCertVolumeName,
           secretName := some (istioCertSecretBase ++
             (if t.spec.serviceAccountName = "" then "default"
              else t.spec.serviceAccountName)) }]) ∧
    (p.mesh.authPolicy ≠ AuthPolicy.mutualTLS → t'.spec.volumes = t.spec.volumes) ∧
    (∀ k : String, k ≠ istioSidecarAnnotationSidecarKey →
      k ≠ istioSidecarAnnotationVersionKey → k ≠ initContainersKey →
      mapLookup k t'.annotations = mapLookup k t.annotations) := by
  obtain ⟨pre, hd, hh, rfl⟩ := inject_none_inv p t t' hm h
  refine ⟨rfl, rfl, rfl, fun hmtls => ?_, fun hn => ?_, fun k h1 h2 h3 => ?_⟩
  · show injectedVolumes p t.spec = _
    simp only [injectedVolumes, if_pos hmtls]
  · show injectedVolumes p t.spec = _
    simp only [injectedVolumes, if_neg hn]
  · show mapLookup k (annsAfterInit p t pre) = _
    rw [annsAfterInit, mapLookup_mapInsert_ne _ _ _ _ h3, annsAfterMarker,
        mapLookup_mapInsert_ne _ _ _ _ h2, mapLookup_mapInsert_ne _ _ _ _ h1]

theorem inject_frame_witness :
    mapLookup istioSidecarAnnotationSidecarKey exTpl.annotations = none ∧
    (inject exParams exTpl).1.labels = exTpl.labels ∧
    mapLookup "app.kubernetes.io/part-of" (inject exParams exTpl).1.annotations =
      mapLookup "app.kubernetes.io/part-of" exTpl.annotations := by
  have h := inject_frame exParams exTpl (inject exParams exTpl).1 rfl rfl
  exact ⟨rfl, h.1, h.2.2.2.2.2 "app.kubernetes.io/part-of" (by decide) (by decide) (by decide)⟩

/-- C3, counterexample: a recognized-kind document whose template is
already injected is emitted as the re-encoding of the decoded object,
which differs from the original raw bytes — the bytes are not passed
through verbatim. -/
theorem already_injected_reencoded_cex :
    processDoc exParams injectedDoc =
      Except.ok (yamlMarshal "Deployment" injectedDocTpl ++ "---\n") ∧
    yamlMarshal "Deployment" injectedDocTpl ++ "---\n" ≠ injectedDoc.raw ++ "---\n" := by
  refine ⟨rfl, ?_⟩
  decide

/-- C3, amended: for a recognized-kind document whose pod template
already carries the marker, the stream processor emits the re-encoded
form of the decoded object (left unchanged by the no-op injection)
followed by the separator — not the original raw bytes. -/
theorem already_injected_reencoded (p : Params) (d : Doc) (kind : String)
    (t : PodTemplateSpec)
    (hk : d.parsedKind = some kind) (hr : kind ∈ recognizedKinds)
    (ht : d.decodedTemplate = some t)
    (hm : (mapLookup istioSidecarAnnotationSidecarKey t.annotations).isSome = true) :
    processDoc p d = Except.ok (yamlMarshal kind t ++ "---\n") := by
  unfold processDoc
  rw [hk]
  dsimp only
  rw [if_pos hr, ht]
  dsimp only
  rw [inject_guard_of_isSome p t hm]

theorem already_injected_reencoded_witness :
    injectedDoc.parsedKind = some "Deployment" ∧
    "Deployment" ∈ recognizedKinds ∧
    injectedDoc.decodedTemplate = some injectedDocTpl ∧
    processDoc exParams injectedDoc =
      Except.ok (yamlMarshal "Deployment" injectedDocTpl ++ "---\n") :=
  ⟨rfl, by decide,  rfl,
   already_injected_reencoded exParams injectedDoc "Deployment" injectedDocTpl rfl
     (by decide) rfl rfl⟩

/-- C8: a document of unrecognized kind is emitted byte-identically,
and every successfully processed document's output ends with the `---`
separator line. -/
theorem unrecognized_kind_passthrough :
    (∀ (p : Params) (d : Doc) (kind : String),
      d.parsedKind = some kind → kind ∉ recognizedKinds →
      processDoc p d = Except.ok (d.raw ++ "---\n")) ∧
    (∀ (p : Params) (d : Doc) (s : String),
      processDoc p d = Except.ok s → ∃ u, s = u ++ "---\n") ∧
    (∀ (p : Params) (d : Doc) (rest : List Doc) (s s2 : String),
      processDoc p d = Except.ok s → intoResourceFile p rest = Except.ok s2 →
      intoResourceFile p (d :: rest) = Except.ok (s ++ s2)) := by
  refine ⟨?_, ?_, ?_⟩
  · intro p d kind hk hnr
    unfold processDoc
    rw [hk]
    dsimp only
    rw [if_neg hnr]
  · intro p d s h
    unfold processDoc at h
    cases hk : d.parsedKind with
    | none =>
      rw [hk] at h
      cases h
    | some kind =>
      rw [hk] at h
      dsimp only at h
      by_cases hr : kind ∈ recognizedKinds
      · rw [if_pos hr] at h
        cases ht : d.decodedTemplate with
        | none =>
          rw [ht] at h
          cases h
        | some t =>
          rw [ht] at h
          dsimp only at h
          cases hi : inject p t with
          | mk t2 e =>
            rw [hi] at h
            cases e with
            | some e2 => cases h
            | none =>
              refine ⟨yamlMarshal kind t2, ?_⟩
              cases h
              rfl
      · rw [if_neg hr] at h
        refine ⟨d.raw, ?_⟩
        cases h
        rfl
  · intro p d rest s s2 h1 h2
    unfold intoResourceFile
    rw [h1, h2]

theorem unrecognized_kind_passthrough_witness :
    svcDoc.parsedKind = some "Service" ∧
    "Service" ∉ recognizedKinds ∧
    processDoc exParams svcDoc = Except.ok (svcDoc.raw ++ "---\n") :=
  ⟨rfl, by decide,
   unrecognized_kind_passthrough.1 exParams svcDoc "Service" rfl (by decide)⟩
